import Mathlib

/-!
Verification of the claude-vault secrets broker: a shallow embedding of the
TokenVault (tokenization.py), the secret classifier (file_parsers.py) and the
WebAuthn approval server's pending-operation ledger and ceremony handlers
(approval_server.py), with theorems settling the spec's claims about them.

Timestamps (Python `time.time()` / `datetime.now().timestamp()`) are modelled
as integers (every threshold the source compares ages against is a whole
number of seconds, so sub-second granularity never decides a comparison in
the claims); the current time is passed explicitly to every function that
reads the clock.  Python dicts are modelled as association lists looked up on
the first matching key (the model keeps the source's per-key update and delete
operations, under which key uniqueness is preserved).  Python exceptions are
modelled with `Except`.  SHA-256 (used only to key the deduplication cache) is
modelled as an abstract function parameter; collision-freedom is assumed only
where a claim itself puts hash collisions out of scope.
-/

namespace ClaudeVault

/-- Python's `str.startswith(p)`, on the character lists of the strings. -/
def strStartsWith (s p : String) : Bool :=
  p.toList.isPrefixOf s.toList

/-- Python's `sub in s` substring test. -/
def strContains (s sub : String) : Bool :=
  (s.toList.tails).any (fun t => sub.toList.isPrefixOf t)

/-- Python dict lookup `m.get(k)` over an association list (first match). -/
def lookupKV {α : Type} : List (String × α) → String → Option α
  | [], _ => none
  | (k, v) :: rest, key => if k = key then some v else lookupKV rest key

/-- Python dict update `m[k] = v`: replace the first binding of `k` in place,
or append a fresh binding at the end (dict insertion order). -/
def setKV {α : Type} : List (String × α) → String → α → List (String × α)
  | [], key, v => [(key, v)]
  | (k, w) :: rest, key, v =>
    if k = key then (key, v) :: rest else (k, w) :: setKV rest key v

/-- Python dict delete `del m[k]`. -/
def removeKV {α : Type} : List (String × α) → String → List (String × α)
  | [], _ => []
  | (k, w) :: rest, key =>
    if k = key then removeKV rest key else (k, w) :: removeKV rest key

instance {ε α : Type} [DecidableEq ε] [DecidableEq α] : DecidableEq (Except ε α) :=
  fun x y =>
    match x, y with
    | .ok a, .ok b =>
      if h : a = b then isTrue (by rw [h]) else isFalse (by simp [h])
    | .error e, .error f =>
      if h : e = f then isTrue (by rw [h]) else isFalse (by simp [h])
    | .ok _, .error _ => isFalse (by simp)
    | .error _, .ok _ => isFalse (by simp)

/-! ## TokenVault (tokenization.py)

`TokenVault.__init__` records the creation time and TTL and starts with empty
maps; `session_id` and the audit-only `token_metadata` store (the source keeps
it "for audit trail" only and never reads it back on the tokenize/detokenize
path) are not modelled.  `secrets.token_hex(8)` is modelled by passing the
freshly drawn hex string `tokenId` as an argument. -/

/-- Errors raised by the vault: `ValueError("Token session ... expired")` and
`ValueError("Unknown token: ...")`. -/
inductive VaultError : Type where
  | expired : VaultError
  | unknownToken : String → VaultError
deriving DecidableEq

/-- The mutable state of `TokenVault`. -/
structure TokenVault : Type where
  session_created : ℤ
  session_ttl : ℤ
  /-- token → plaintext -/
  token_map : List (String × String)
  /-- hash(plaintext) → token -/
  value_to_token : List (String × String)
deriving DecidableEq

/-- `TokenVault._is_expired`: `(time.time() - self.session_created) > self.session_ttl`. -/
def TokenVault.is_expired (v : TokenVault) (now : ℤ) : Bool :=
  decide (now - v.session_created > v.session_ttl)

/-- The literal token prefix used by `tokenize`/`detokenize`. -/
def tokenLit : String := "@token-"

/-- `TokenVault.tokenize`: raise on expiry; return the cached token when the
value hash is already known; otherwise mint `"@token-" + token_hex(8)` and
record both directions.  `hash` stands for `hashlib.sha256(...).hexdigest()`
and `tokenId` for the random `secrets.token_hex(8)` draw. -/
def TokenVault.tokenize (hash : String → String) (v : TokenVault) (now : ℤ)
    (tokenId : String) (value : String) : Except VaultError (String × TokenVault) :=
  if v.is_expired now then .error .expired
  else
    match lookupKV v.value_to_token (hash value) with
    | some t => .ok (t, v)
    | none =>
      .ok (tokenLit ++ tokenId,
        { v with
          token_map := (tokenLit ++ tokenId, value) :: v.token_map
          value_to_token := (hash value, tokenLit ++ tokenId) :: v.value_to_token })

/-- `TokenVault.detokenize`: raise on expiry; pass a non-`@token-`-prefixed
string through unchanged; raise `Unknown token` when the prefixed string is
absent from the map; else return the stored plaintext. -/
def TokenVault.detokenize (v : TokenVault) (now : ℤ) (token : String) :
    Except VaultError String :=
  if v.is_expired now then .error .expired
  else if strStartsWith token tokenLit = false then .ok token
  else
    match lookupKV v.token_map token with
    | some value => .ok value
    | none => .error (.unknownToken token)

/-- Dedup-cache consistency: every cached `hash(value) → token` binding points
at a `@token-`-prefixed token that the forward map resolves back to `value`.
Holds of a fresh vault and is preserved by `tokenize` (with an injective hash
and fresh minted tokens). -/
def WFVault (hash : String → String) (v : TokenVault) : Prop :=
  ∀ value t, lookupKV v.value_to_token (hash value) = some t →
    strStartsWith t tokenLit = true ∧ lookupKV v.token_map t = some value

/-! ## Secret classifier (file_parsers.py, `classify_secret`)

Python's `key.upper()` / `value.lower()` are modelled over character lists
(the keys and values in scope are ASCII).  `value.isdigit()` is true on a
nonempty all-digit string.  The Shannon-entropy threshold of step 9,
`-sum((c/n) * log2(c/n)) >= 3.5` computed over the character frequency
distribution, is expressed by the equivalent integer inequality
`n^(2n) >= 2^(7n) * (prod c^c)^2` (multiply by `n`, exponentiate base 2 and
square to clear the `7/2`); the source's float arithmetic is modelled as exact
real arithmetic. -/

def strToUpper (s : String) : String := String.mk (s.toList.map Char.toUpper)

def strToLower (s : String) : String := String.mk (s.toList.map Char.toLower)

def strIsDigit (s : String) : Bool := s.toList.all Char.isDigit && !s.toList.isEmpty

/-- Step 1's `NON_SECRET_KEYS` set. -/
def NON_SECRET_KEYS : List String :=
  ["PORT", "PORTS", "HOST", "HOSTNAME", "DOMAIN", "URL", "ENVIRONMENT", "ENV",
   "NODE_ENV", "DEBUG", "LOG_LEVEL", "LOGLEVEL", "TIMEZONE", "TZ", "PUID",
   "PGID", "UMASK", "LANG", "LANGUAGE", "LC_ALL", "PATH", "HOME", "USER",
   "UID", "GID", "WORKDIR", "VERSION"]

/-- Step 2's URL-scheme prefixes. -/
def URL_PREFIXES : List String := ["http://", "https://", "ftp://", "ws://", "wss://"]

/-- Step 3's boolean/simple literals. -/
def BOOLEAN_VALUES : List String :=
  ["true", "false", "yes", "no", "1", "0", "enabled", "disabled", "on", "off"]

/-- Step 6's path prefixes. -/
def PATH_PREFIXES : List String := ["/", "./", "../"]

/-- Step 7's variable-expansion openers `${` and `$(`. -/
def EXPANSION_MARKS : List String := ["$\x7b", "$("]

/-- Step 8's `SECRET_KEY_PATTERNS` list. -/
def SECRET_KEY_PATTERNS : List String :=
  ["PASSWORD", "PASSWD", "PWD", "SECRET", "TOKEN", "API_KEY", "APIKEY", "API",
   "KEY", "PRIVATE_KEY", "PRIV_KEY", "AUTH", "CREDENTIAL", "CREDS", "SALT",
   "HASH", "ENCRYPTION_KEY", "ENCRYPT", "SIGNATURE", "CERT", "CERTIFICATE",
   "LICENSE", "SESSION"]

/-- Step 9's test `entropy >= 3.5` over the character distribution of `value`,
as the equivalent integer inequality (see the section comment). -/
def highEntropy (value : String) : Bool :=
  let chars := value.toList
  let n := chars.length
  let counts := chars.dedup.map (fun c => chars.count c)
  let prodPow := counts.foldl (fun acc c => acc * c ^ c) 1
  decide (n ^ (2 * n) ≥ 2 ^ (7 * n) * prodPow ^ 2)

/-- `classify_secret(key, value)`: the source's ten-step decision chain,
first match wins.  The `try/except` around step 9 is dropped: with
`len(value) >= 16` neither `ValueError` nor `ZeroDivisionError` can occur. -/
def classify_secret (key value : String) : Bool :=
  if value = "" then false
  else
    if NON_SECRET_KEYS.contains (strToUpper key) then false
    else if URL_PREFIXES.any (fun p => strStartsWith value p) then false
    else if BOOLEAN_VALUES.contains (strToLower value) then false
    else if value.length < 8 then false
    else if strIsDigit value then false
    else if (PATH_PREFIXES.any (fun p => strStartsWith value p))
            && strContains value "/" then false
    else if EXPANSION_MARKS.any (fun m => strContains value m) then false
    else if SECRET_KEY_PATTERNS.any (fun p => strContains (strToUpper key) p) then true
    else if value.length ≥ 16 && highEntropy value then true
    else if value.length ≥ 20 then true
    else false

/-! The spec presents the classifier as an ordered rule list, first match wins.
Each rule either decides (`some verdict`) or passes (`none`). -/

/-- One classifier rule: `some b` decides the pair, `none` defers. -/
def ClassifierRule : Type := String → String → Option Bool

def ruleAllowListedKey : ClassifierRule := fun key _ =>
  if NON_SECRET_KEYS.contains (strToUpper key) then some false else none

def ruleUrlValue : ClassifierRule := fun _ value =>
  if URL_PREFIXES.any (fun p => strStartsWith value p) then some false else none

def ruleBooleanValue : ClassifierRule := fun _ value =>
  if BOOLEAN_VALUES.contains (strToLower value) then some false else none

def ruleShortValue : ClassifierRule := fun _ value =>
  if value.length < 8 then some false else none

def ruleNumericValue : ClassifierRule := fun _ value =>
  if strIsDigit value then some false else none

def rulePathValue : ClassifierRule := fun _ value =>
  if (PATH_PREFIXES.any (fun p => strStartsWith value p))
     && strContains value "/" then some false else none

def ruleExpansionValue : ClassifierRule := fun _ value =>
  if EXPANSION_MARKS.any (fun m => strContains value m) then some false else none

def ruleSecretKeyName : ClassifierRule := fun key _ =>
  if SECRET_KEY_PATTERNS.any (fun p => strContains (strToUpper key) p)
  then some true else none

def ruleHighEntropy : ClassifierRule := fun _ value =>
  if value.length ≥ 16 && highEntropy value then some true else none

def ruleLongDefault : ClassifierRule := fun _ value =>
  if value.length ≥ 20 then some true else none

/-- The spec's ten rules in their stated order. -/
def classifierRules : List ClassifierRule :=
  [ruleAllowListedKey, ruleUrlValue, ruleBooleanValue, ruleShortValue,
   ruleNumericValue, rulePathValue, ruleExpansionValue, ruleSecretKeyName,
   ruleHighEntropy, ruleLongDefault]

/-- First-match-wins evaluation of a rule list; no match ⇒ not sensitive. -/
def firstMatch : List ClassifierRule → String → String → Bool
  | [], _, _ => false
  | r :: rest, key, value =>
    match r key value with
    | some b => b
    | none => firstMatch rest key value

/-! ## Approval server (approval_server.py)

The `ApprovalServer` state covered by the claims: the live pending-operation
ledger, the single registered credential (the source keys `credentials_db` by
the constant user id `"vault-admin"`, so it holds at most one record), the
one-shot challenge store, and the on-disk mirrors of the ledger and the
credential store (`none` = file absent).  The append-only completed-history
ledger, the HTML rendering and the logged-and-ignored save failures play no
part in the claims and are not modelled; a save is modelled as replacing the
disk mirror.  WebAuthn signature verification
(`verify_registration_response` / `verify_authentication_response`) is an
external library call: its outcome is passed in as an `Option` argument
(`none` = the library raised). -/

/-- The `PendingOperation` dataclass.  `metadata` is an opaque string-keyed
record. -/
structure PendingOperation : Type where
  op_id : String
  service : String
  action : String
  secrets : List (String × String)
  warnings : List String
  created_at : ℤ
  approved : Bool := false
  approved_at : Option ℤ := none
  scan_file_path : Option String := none
  metadata : Option (List (String × String)) := none
  tokens_map : Option (List (String × String)) := none
  approved_by_credential : Option String := none
  approved_by_device : Option String := none
deriving DecidableEq

/-- The stored credential record for user `"vault-admin"` (hex strings for the
credential id and public key). -/
structure StoredCredential : Type where
  credential_id : String
  public_key : String
  sign_count : ℤ
  created_at : String
  registered_at : ℤ
  device_name : String
deriving DecidableEq

/-- Outcome of the external `verify_authentication_response` call. -/
structure AuthVerification : Type where
  new_sign_count : ℤ
  credential_id : String
deriving DecidableEq

/-- Outcome of the external `verify_registration_response` call. -/
structure RegVerification : Type where
  credential_id : String
  credential_public_key : String
  sign_count : ℤ
deriving DecidableEq

/-- The `ApprovalServer` state the claims touch. -/
structure ApprovalState : Type where
  pending_ops : List (String × PendingOperation)
  credentials_db : Option StoredCredential
  challenges : List (String × String)
  disk_pending : Option (List (String × PendingOperation))
  disk_credentials : Option StoredCredential
deriving DecidableEq

/-- `_load_pending_operations`: if the ledger file exists, read every record
into the in-memory dict (overwriting per key), then delete every operation
older than 300 seconds, and save back iff something was deleted.  A missing
file leaves the state untouched. -/
def load_pending_operations (st : ApprovalState) (now : ℤ) : ApprovalState :=
  match st.disk_pending with
  | none => st
  | some data =>
    let merged := data.foldl (fun acc kv => setKV acc kv.1 kv.2) st.pending_ops
    let kept := merged.filter (fun kv => !decide (now - kv.2.created_at > 300))
    if merged.filter (fun kv => decide (now - kv.2.created_at > 300)) = []
    then { st with pending_ops := merged }
    else { st with pending_ops := kept, disk_pending := some kept }

/-- `ApprovalServer.is_approved`: reload from disk, report false for a missing
operation, evict (without saving) and report false for one older than 300
seconds, else report its approval flag.  Returns the flag and the state the
call leaves behind. -/
def is_approved (st : ApprovalState) (now : ℤ) (op_id : String) :
    Bool × ApprovalState :=
  let st₁ := load_pending_operations st now
  match lookupKV st₁.pending_ops op_id with
  | none => (false, st₁)
  | some op =>
    if now - op.created_at > 300 then
      (false, { st₁ with pending_ops := removeKV st₁.pending_ops op_id })
    else (op.approved, st₁)

/-- Result of `GET /approve/{op_id}`. -/
inductive ApprovePageResult : Type where
  /-- 404 "Operation not found or expired" -/
  | notFound : ApprovePageResult
  /-- 410 "Operation expired (max 5 minutes)" -/
  | gone : ApprovePageResult
  /-- 200, the approval page -/
  | page : ApprovePageResult
deriving DecidableEq

/-- `approve_page`: reload from disk, 404 for a missing operation, evict and
410 for one older than 300 seconds, else render the approval page. -/
def approve_page (st : ApprovalState) (now : ℤ) (op_id : String) :
    ApprovePageResult × ApprovalState :=
  let st₁ := load_pending_operations st now
  match lookupKV st₁.pending_ops op_id with
  | none => (.notFound, st₁)
  | some op =>
    if now - op.created_at > 300 then
      (.gone, { st₁ with pending_ops := removeKV st₁.pending_ops op_id })
    else (.page, st₁)

/-- Result of `POST /webauthn/authenticate/verify`. -/
inductive AuthVerifyResult : Type where
  /-- 400 "Invalid session" -/
  | invalidSession : AuthVerifyResult
  /-- 404 "Operation not found" -/
  | opNotFound : AuthVerifyResult
  /-- 400 "No registered authenticator" -/
  | noCredential : AuthVerifyResult
  /-- 400 "Authentication failed" (the library raised) -/
  | authFailed : AuthVerifyResult
  /-- 200, operation approved -/
  | success : AuthVerifyResult
deriving DecidableEq

/-- `authenticate_verify`: reject an empty or unknown session id; 404 for an
operation id absent from the in-memory pending dict (note: no reload from
disk and no expiry check); pop the challenge; reject when no credential is
registered; hand the popped challenge and stored credential to the external
verifier; on success update the stored sign count, flip the operation's
approval fields and save the ledger.  `verification` is the external
verifier's outcome. -/
def authenticate_verify (st : ApprovalState) (now : ℤ) (session_id : String)
    (op_id : String) (verification : Option AuthVerification) :
    AuthVerifyResult × ApprovalState :=
  if session_id = "" ∨ lookupKV st.challenges session_id = none then
    (.invalidSession, st)
  else
    match lookupKV st.pending_ops op_id with
    | none => (.opNotFound, st)
    | some op =>
      let st₁ := { st with challenges := removeKV st.challenges session_id }
      match st₁.credentials_db with
      | none => (.noCredential, st₁)
      | some stored_credential =>
        match verification with
        | none => (.authFailed, st₁)
        | some verif =>
          let cred' := { stored_credential with sign_count := verif.new_sign_count }
          let op' := { op with
                       approved := true
                       approved_at := some now
                       approved_by_credential := some verif.credential_id
                       approved_by_device := some stored_credential.device_name }
          let pending' := setKV st₁.pending_ops op_id op'
          (.success,
           { st₁ with
             credentials_db := some cred'
             disk_credentials := some cred'
             pending_ops := pending'
             disk_pending := some pending' })

/-- Result of `POST /webauthn/register/verify`. -/
inductive RegVerifyResult : Type where
  /-- 400 "Invalid session" -/
  | invalidSession : RegVerifyResult
  /-- 400 "Registration failed" (the library raised) -/
  | registrationFailed : RegVerifyResult
  /-- 200, authenticator registered -/
  | success : RegVerifyResult
deriving DecidableEq

/-- `register_verify`: reject an empty or unknown session id; pop the
challenge; hand it to the external verifier; on success overwrite the single
`"vault-admin"` credential record and save it.  `created_at_iso` stands for
`datetime.now().isoformat()`. -/
def register_verify (st : ApprovalState) (now : ℤ) (session_id : String)
    (device_name : String) (created_at_iso : String)
    (verification : Option RegVerification) : RegVerifyResult × ApprovalState :=
  if session_id = "" ∨ lookupKV st.challenges session_id = none then
    (.invalidSession, st)
  else
    let st₁ := { st with challenges := removeKV st.challenges session_id }
    match verification with
    | none => (.registrationFailed, st₁)
    | some verif =>
      let cred : StoredCredential :=
        { credential_id := verif.credential_id
          public_key := verif.credential_public_key
          sign_count := verif.sign_count
          created_at := created_at_iso
          registered_at := now
          device_name := device_name }
      (.success, { st₁ with credentials_db := some cred, disk_credentials := some cred })

/-! ## Structured detokenization (tokenization.py, `detokenize_dict`)

Python values that can appear inside the dicts `detokenize_dict` walks:
strings, numbers, booleans, `None`, dicts and lists. -/

inductive JValue : Type where
  | str (s : String)
  | num (n : ℤ)
  | bool (b : Bool)
  | null
  | dict (entries : List (String × JValue))
  | list (items : List JValue)

/-- The list comprehension inside `detokenize_dict`: each element of a list
value is detokenized iff it is a `@token-`-prefixed string; every other
element — including a nested dict or list — is kept as is. -/
def detok_list (vault : TokenVault) (now : ℤ) :
    List JValue → Except VaultError (List JValue)
  | [] => .ok []
  | v :: rest =>
    match (match v with
           | .str s =>
             if strStartsWith s tokenLit then (vault.detokenize now s).map JValue.str
             else .ok v
           | _ => .ok v) with
    | .error e => .error e
    | .ok v' =>
      match detok_list vault now rest with
      | .error e => .error e
      | .ok r => .ok (v' :: r)

/-- `TokenVault.detokenize_dict`: walk the dict in insertion order;
a `@token-`-prefixed string value is detokenized, a dict value is walked
recursively, a list value is mapped by the comprehension above (no recursion
into its elements), anything else is copied; the first raised error aborts
the walk. -/
def detokenize_dict (vault : TokenVault) (now : ℤ) :
    List (String × JValue) → Except VaultError (List (String × JValue))
  | [] => .ok []
  | (key, value) :: rest =>
    match value with
    | .str s =>
      if strStartsWith s tokenLit then
        match vault.detokenize now s with
        | .error e => .error e
        | .ok w =>
          match detokenize_dict vault now rest with
          | .error e => .error e
          | .ok r => .ok ((key, .str w) :: r)
      else
        match detokenize_dict vault now rest with
        | .error e => .error e
        | .ok r => .ok ((key, value) :: r)
    | .dict entries =>
      match detokenize_dict vault now entries with
      | .error e => .error e
      | .ok d =>
        match detokenize_dict vault now rest with
        | .error e => .error e
        | .ok r => .ok ((key, .dict d) :: r)
    | .list items =>
      match detok_list vault now items with
      | .error e => .error e
      | .ok l =>
        match detokenize_dict vault now rest with
        | .error e => .error e
        | .ok r => .ok ((key, .list l) :: r)
    | _ =>
      match detokenize_dict vault now rest with
      | .error e => .error e
      | .ok r => .ok ((key, value) :: r)

mutual
/-- Modelled from the spec: `detokenizeStructured` "recursively walks
mappings/sequences replacing any token-shaped string" — the fully recursive
walk the claim describes, descending into containers at any nesting depth. -/
def detokenize_deep_value (vault : TokenVault) (now : ℤ) :
    JValue → Except VaultError JValue
  | .str s =>
    if strStartsWith s tokenLit then (vault.detokenize now s).map JValue.str
    else .ok (.str s)
  | .dict entries =>
    match detokenize_deep_entries vault now entries with
    | .error e => .error e
    | .ok d => .ok (.dict d)
  | .list items =>
    match detokenize_deep_items vault now items with
    | .error e => .error e
    | .ok l => .ok (.list l)
  | v => .ok v

/-- Modelled from the spec: the fully recursive walk over a mapping. -/
def detokenize_deep_entries (vault : TokenVault) (now : ℤ) :
    List (String × JValue) → Except VaultError (List (String × JValue))
  | [] => .ok []
  | (key, value) :: rest =>
    match detokenize_deep_value vault now value with
    | .error e => .error e
    | .ok v' =>
      match detokenize_deep_entries vault now rest with
      | .error e => .error e
      | .ok r => .ok ((key, v') :: r)

/-- Modelled from the spec: the fully recursive walk over a sequence. -/
def detokenize_deep_items (vault : TokenVault) (now : ℤ) :
    List JValue → Except VaultError (List JValue)
  | [] => .ok []
  | v :: rest =>
    match detokenize_deep_value vault now v with
    | .error e => .error e
    | .ok v' =>
      match detokenize_deep_items vault now rest with
      | .error e => .error e
      | .ok r => .ok (v' :: r)
end

/-- A sequence element that is itself a container (a nested dict or list). -/
def isContainer : JValue → Bool
  | .dict _ => true
  | .list _ => true
  | _ => false

mutual
/-- No sequence anywhere in the value holds a nested container. -/
def flat_value : JValue → Bool
  | .dict entries => flat_entries entries
  | .list items => items.all (fun v => !isContainer v)
  | _ => true

/-- No sequence anywhere in the mapping holds a nested container. -/
def flat_entries : List (String × JValue) → Bool
  | [] => true
  | (_, v) :: rest => flat_value v && flat_entries rest
end

/-! Concrete vault states for witnesses and counterexamples. -/

/-- `TokenVault(session_ttl=1)` constructed at time 0 (the spec's ttl=1 second
expiry example). -/
def vaultTtl1 : TokenVault :=
  { session_created := 0, session_ttl := 1, token_map := [], value_to_token := [] }

/-- `vaultFresh` after `tokenize("hunter2")` minted the token id
`"aaaaaaaaaaaaaaaa"` (with the identity function standing in for SHA-256). -/
def vaultW : TokenVault :=
  { session_created := 0, session_ttl := 100
    token_map := [("@token-aaaaaaaaaaaaaaaa", "hunter2")]
    value_to_token := [("hunter2", "@token-aaaaaaaaaaaaaaaa")] }

/-- `vaultW` after a second `tokenize("swordfish")` minted `"bbbbbbbbbbbbbbbb"`. -/
def vaultW2 : TokenVault :=
  { session_created := 0, session_ttl := 100
    token_map := [("@token-bbbbbbbbbbbbbbbb", "swordfish"),
                  ("@token-aaaaaaaaaaaaaaaa", "hunter2")]
    value_to_token := [("swordfish", "@token-bbbbbbbbbbbbbbbb"),
                       ("hunter2", "@token-aaaaaaaaaaaaaaaa")] }

/-- A pending operation created at time 0, not yet approved. -/
def opC1 : PendingOperation :=
  { op_id := "op1", service := "jellyfin", action := "UPDATE"
    secrets := [("API_KEY", "k3WqX9ZrT2pLm4Vn")], warnings := [], created_at := 0 }

/-- A registered credential with stored sign count 5. -/
def credC1 : StoredCredential :=
  { credential_id := "cid01", public_key := "pk01", sign_count := 5
    created_at := "2026-01-01T00:00:00", registered_at := 0, device_name := "YubiKey" }

/-- Approval-server state holding `opC1` (in memory and on disk), `credC1`
and one outstanding authentication challenge for session `s1`. -/
def stC1 : ApprovalState :=
  { pending_ops := [("op1", opC1)], credentials_db := some credC1
    challenges := [("s1", "challenge-bytes")]
    disk_pending := some [("op1", opC1)], disk_credentials := some credC1 }

/-- A successful ceremony outcome advancing the sign count to 6. -/
def verifC1 : AuthVerification := { new_sign_count := 6, credential_id := "cid01" }

/-- State with an outstanding challenge but no registered credential. -/
def stC4 : ApprovalState :=
  { pending_ops := [("op1", opC1)], credentials_db := none
    challenges := [("s1", "challenge-bytes")]
    disk_pending := none, disk_credentials := none }

/-- An operation created at time 0 that was approved at time 5. -/
def opApprovedOld : PendingOperation :=
  { op_id := "op9", service := "jellyfin", action := "UPDATE"
    secrets := [("API_KEY", "k3WqX9ZrT2pLm4Vn")], warnings := [], created_at := 0
    approved := true, approved_at := some 5
    approved_by_credential := some "cid01", approved_by_device := some "YubiKey" }

/-- State holding the approved `opApprovedOld` in memory and on disk. -/
def stC6 : ApprovalState :=
  { pending_ops := [("op9", opApprovedOld)], credentials_db := some credC1
    challenges := [], disk_pending := some [("op9", opApprovedOld)]
    disk_credentials := some credC1 }

/-- State holding the approved `opApprovedOld` in memory only (no ledger file
on disk, so a reload is a no-op and eviction falls to `is_approved`). -/
def stC10 : ApprovalState :=
  { pending_ops := [("op9", opApprovedOld)], credentials_db := some credC1
    challenges := [], disk_pending := none, disk_credentials := some credC1 }

/-- A mapping whose sequence value holds a nested mapping with a token-shaped
string inside. -/
def dataC9 : List (String × JValue) :=
  [("outer", .list [.dict [("cred", .str "@token-aaaaaaaaaaaaaaaa")]])]

/-- `dataC9` with the nested token replaced by its plaintext — what the fully
recursive walk produces. -/
def dataC9deep : List (String × JValue) :=
  [("outer", .list [.dict [("cred", .str "hunter2")]])]

/-- A mapping whose sequences hold only scalars: a token-shaped string value,
a nested mapping, and a sequence with a token-shaped string element. -/
def dataC9flat : List (String × JValue) :=
  [("k", .str "@token-aaaaaaaaaaaaaaaa"),
   ("nested", .dict [("x", .num 1)]),
   ("l", .list [.str "@token-aaaaaaaaaaaaaaaa", .num 2])]

/-- The token grammar: the literal prefix `@token-` followed by exactly 16
lowercase-hex characters — the regular expression
`@token-[a-f0-9]{16}` that `detokenize_text` substitutes on. -/
def matchesTokenGrammar (s : String) : Bool :=
  strStartsWith s tokenLit
    && ((s.toList.drop 7).length == 16)
    && (s.toList.drop 7).all (fun c => c.isDigit || ("abcdef".toList.contains c))

/-! ## Helper lemmas and claim theorems -/

theorem lookupKV_nil {α : Type} (key : String) :
    lookupKV ([] : List (String × α)) key = none := rfl

theorem lookupKV_removeKV_self {α : Type} (l : List (String × α)) (key : String) :
    lookupKV (removeKV l key) key = none := by
  induction l with
  | nil => rfl
  | cons p rest ih =>
    obtain ⟨k, w⟩ := p
    by_cases h : k = key
    · simpa [removeKV, h] using ih
    · simp [removeKV, lookupKV, h, ih]

theorem lookupKV_setKV_self {α : Type} (l : List (String × α)) (key : String) (v : α) :
    lookupKV (setKV l key v) key = some v := by
  induction l with
  | nil => simp [setKV, lookupKV]
  | cons p rest ih =>
    obtain ⟨k, w⟩ := p
    by_cases h : k = key
    · simp [setKV, h, lookupKV]
    · simp [setKV, lookupKV, h, ih]

theorem lookupKV_filter {α : Type} (p : String × α → Bool) (l : List (String × α))
    (key : String) (v : α) (h : lookupKV (l.filter p) key = some v) :
    p (key, v) = true := by
  induction l with
  | nil => simp [lookupKV] at h
  | cons q rest ih =>
    obtain ⟨k, w⟩ := q
    by_cases hp : p (k, w)
    · rw [List.filter_cons_of_pos hp] at h
      by_cases hk : k = key
      · subst hk
        simp [lookupKV] at h
        rwa [← h]
      · rw [lookupKV] at h
        simp only [hk, if_false] at h
        exact ih h
    · rw [List.filter_cons_of_neg (by simpa using hp)] at h
      exact ih h

theorem lookupKV_mem {α : Type} (l : List (String × α)) (key : String) (v : α)
    (h : lookupKV l key = some v) : (key, v) ∈ l := by
  induction l with
  | nil => simp [lookupKV] at h
  | cons q rest ih =>
    obtain ⟨k, w⟩ := q
    by_cases hk : k = key
    · subst hk
      simp [lookupKV] at h
      simp [h]
    · rw [lookupKV] at h
      simp only [hk, if_false] at h
      exact List.mem_cons_of_mem _ (ih h)


theorem strStartsWith_append (p s : String) : strStartsWith (p ++ s) p = true := by
  simp only [strStartsWith]
  rw [List.isPrefixOf_iff_prefix]
  exact ⟨s.toList, by simp⟩

/-- A fresh vault, as `TokenVault(session_ttl=100)` constructed at time 0:
empty maps. -/
def vaultFresh : TokenVault :=
  { session_created := 0, session_ttl := 100, token_map := [], value_to_token := [] }


theorem wfVault_fresh (hash : String → String) : WFVault hash vaultFresh :=
  fun _ _ h => nomatch h


/-- `tokenize` preserves the dedup-cache consistency invariant, provided the
hash is collision-free and the minted token is fresh. -/
theorem wfVault_tokenize (hash : String → String) (v : TokenVault) (now : ℤ)
    (tokenId value : String) (tok : String) (v' : TokenVault)
    (hinj : Function.Injective hash)
    (hfresh : lookupKV v.token_map (tokenLit ++ tokenId) = none)
    (hwf : WFVault hash v)
    (heq : v.tokenize hash now tokenId value = .ok (tok, v')) :
    WFVault hash v' := by
  rw [TokenVault.tokenize] at heq
  by_cases hexp : v.is_expired now = true
  · rw [if_pos hexp] at heq
    exact absurd heq (by simp)
  · rw [if_neg hexp] at heq
    rcases hm : lookupKV v.value_to_token (hash value) with _ | t
    · rw [hm] at heq
      simp only [Except.ok.injEq, Prod.mk.injEq] at heq
      obtain ⟨htok, hv⟩ := heq
      subst hv
      intro w t' hl
      simp only [lookupKV] at hl
      by_cases hw : hash value = hash w
      · have hwv : w = value := hinj hw.symm
        subst hwv
        rw [if_pos hw] at hl
        obtain rfl : tokenLit ++ tokenId = t' := by simpa using hl
        refine ⟨strStartsWith_append _ _, ?_⟩
        simp [lookupKV]
      · rw [if_neg hw] at hl
        obtain ⟨hs, hlk⟩ := hwf w t' hl
        refine ⟨hs, ?_⟩
        have hne : ¬ tokenLit ++ tokenId = t' := by
          intro hcontra
          rw [hcontra] at hfresh
          rw [hfresh] at hlk
          exact absurd hlk (by simp)
        simp [lookupKV, hne, hlk]
    · rw [hm] at heq
      simp only [Except.ok.injEq, Prod.mk.injEq] at heq
      obtain ⟨htok, hv⟩ := heq
      subst hv
      exact hwf

/-- C5: `classify_secret` decides sensitivity exactly as the spec's ten-rule
first-match-wins order with its exact thresholds (allow-listed keys, URL
prefixes, boolean literals, length < 8, purely numeric, path-like, variable
expansion, secret-indicating key substrings, Shannon entropy ≥ 3.5 for
length ≥ 16, default sensitive at length ≥ 20); in particular
`isSensitive("PORT", "8080") = false`,
`isSensitive("API_KEY", "a1b2c3d4e5f6g7h8") = true`,
`isSensitive("DESCRIPTION", "short") = false` and
`isSensitive("X", "https://example.com/path") = false`. -/
theorem claim_C5_classifier_rule_order :
    (∀ key value, classify_secret key value = firstMatch classifierRules key value)
    ∧ classify_secret "PORT" "8080" = false
    ∧ classify_secret "API_KEY" "a1b2c3d4e5f6g7h8" = true
    ∧ classify_secret "DESCRIPTION" "short" = false
    ∧ classify_secret "X" "https://example.com/path" = false := by
  refine ⟨fun k v => ?_, by decide, by decide, by decide, by decide⟩
  by_cases h0 : v = ""
  · subst h0
    have h2 : ruleUrlValue k "" = none := rfl
    have h3 : ruleBooleanValue k "" = none := rfl
    have h4 : ruleShortValue k "" = some false := rfl
    simp only [classify_secret, firstMatch, classifierRules, ruleAllowListedKey,
      h2, h3, h4, if_true]
    split_ifs <;> rfl
  · simp only [classify_secret, firstMatch, classifierRules, ruleAllowListedKey,
      ruleUrlValue, ruleBooleanValue, ruleShortValue, ruleNumericValue, rulePathValue,
      ruleExpansionValue, ruleSecretKeyName, ruleHighEntropy, ruleLongDefault, h0]
    by_cases h1 : NON_SECRET_KEYS.contains (strToUpper k) = true
    case pos => simp only [h1, if_true, if_false, Bool.false_eq_true]
    case neg =>
      simp only [h1, if_false]
      by_cases h2 : URL_PREFIXES.any (fun p => strStartsWith v p) = true
      case pos => simp only [h2, if_true, if_false, Bool.false_eq_true]
      case neg =>
        simp only [h2, if_false]
        by_cases h3 : BOOLEAN_VALUES.contains (strToLower v) = true
        case pos => simp only [h3, if_true, if_false, Bool.false_eq_true]
        case neg =>
          simp only [h3, if_false]
          by_cases h4 : v.length < 8
          case pos => simp only [if_pos h4, if_false, Bool.false_eq_true]
          case neg =>
            simp only [if_neg h4]
            by_cases h5 : strIsDigit v = true
            case pos => simp only [h5, if_true, if_false, Bool.false_eq_true]
            case neg =>
              simp only [h5, if_false]
              by_cases h6 : ((PATH_PREFIXES.any fun p => strStartsWith v p)
                  && strContains v "/") = true
              case pos => simp only [h6, if_true, if_false, Bool.false_eq_true]
              case neg =>
                simp only [h6, if_false]
                by_cases h7 : (EXPANSION_MARKS.any fun m => strContains v m) = true
                case pos => simp only [h7, if_true, if_false, Bool.false_eq_true]
                case neg =>
                  simp only [h7, if_false]
                  by_cases h8 : (SECRET_KEY_PATTERNS.any
                      fun p => strContains (strToUpper k) p) = true
                  case pos => simp only [h8, if_true, if_false, Bool.false_eq_true]
                  case neg =>
                    simp only [h8, if_false]
                    by_cases h9 : (v.length ≥ 16 && highEntropy v) = true
                    case pos => simp only [h9, if_true, if_false, Bool.false_eq_true]
                    case neg =>
                      simp only [h9, if_false]
                      by_cases h10 : v.length ≥ 20
                      case pos => simp only [if_pos h10, if_false, Bool.false_eq_true]
                      case neg => simp only [if_neg h10, Bool.false_eq_true, if_false]

/-- C2: for every string value, while the TokenVault session is unexpired
(`tokenize` succeeded at time `now`), `detokenize` applied at the same time to
the token `tokenize` returned gives the value back — the round-trip identity —
for any vault whose dedup cache is consistent (`WFVault`, which holds of a
fresh vault and is preserved by `tokenize`). -/
theorem claim_C2_roundtrip (hash : String → String) (v : TokenVault) (now : ℤ)
    (tokenId value : String) (tok : String) (v' : TokenVault)
    (hwf : WFVault hash v)
    (heq : v.tokenize hash now tokenId value = .ok (tok, v')) :
    v'.detokenize now tok = .ok value := by
  rw [TokenVault.tokenize] at heq
  by_cases hexp : v.is_expired now = true
  · rw [if_pos hexp] at heq
    exact absurd heq (by simp)
  · rw [if_neg hexp] at heq
    rcases hm : lookupKV v.value_to_token (hash value) with _ | t
    · rw [hm] at heq
      simp only [Except.ok.injEq, Prod.mk.injEq] at heq
      obtain ⟨htok, hv⟩ := heq
      subst hv
      rw [TokenVault.detokenize]
      have hexp' : TokenVault.is_expired
          { v with
            token_map := (tokenLit ++ tokenId, value) :: v.token_map
            value_to_token := (hash value, tokenLit ++ tokenId) :: v.value_to_token }
          now = false := by
        simpa [TokenVault.is_expired] using hexp
      rw [hexp', if_neg (by simp)]
      rw [← htok, strStartsWith_append]
      simp [lookupKV]
    · rw [hm] at heq
      simp only [Except.ok.injEq, Prod.mk.injEq] at heq
      obtain ⟨htok, hv⟩ := heq
      subst hv
      obtain ⟨hs, hlk⟩ := hwf value t hm
      rw [TokenVault.detokenize]
      have hexp' : v.is_expired now = false := by simpa using hexp
      rw [hexp', if_neg (by simp), ← htok]
      simp [hs, hlk, ← htok]

/-- C2 witness: round-tripping `"hunter2"` through a fresh vault at time 0. -/
theorem claim_C2_roundtrip_witness :
    vaultW.detokenize 0 "@token-aaaaaaaaaaaaaaaa" = .ok "hunter2" :=
  claim_C2_roundtrip id vaultFresh 0 "aaaaaaaaaaaaaaaa" "hunter2"
    "@token-aaaaaaaaaaaaaaaa" vaultW (wfVault_fresh id) (by decide)

/-- C3: once the session's time-to-live has elapsed — a hard deadline measured
from session creation — every `tokenize` and every `detokenize` call fails
with the session-expired error; and (hard deadline, not a sliding window) a
successful `tokenize` never changes `session_created` or `session_ttl`, so no
use of the vault can postpone the deadline. -/
theorem claim_C3_hard_expiry (v : TokenVault) (now : ℤ)
    (h : now - v.session_created > v.session_ttl) :
    (∀ hash tokenId value, v.tokenize hash now tokenId value = .error .expired)
    ∧ (∀ token, v.detokenize now token = .error .expired)
    ∧ (∀ hash now' tokenId value tok v',
        v.tokenize hash now' tokenId value = .ok (tok, v') →
        v'.session_created = v.session_created ∧ v'.session_ttl = v.session_ttl) := by
  have hexp : v.is_expired now = true := by
    simpa [TokenVault.is_expired] using h
  refine ⟨?_, ?_, ?_⟩
  · intro hash tokenId value
    rw [TokenVault.tokenize, if_pos hexp]
  · intro token
    rw [TokenVault.detokenize, if_pos hexp]
  · intro hash now' tokenId value tok v' heq
    rw [TokenVault.tokenize] at heq
    by_cases hexp' : v.is_expired now' = true
    · rw [if_pos hexp'] at heq
      exact absurd heq (by simp)
    · rw [if_neg hexp'] at heq
      rcases hm : lookupKV v.value_to_token (hash value) with _ | t
      · rw [hm] at heq
        simp only [Except.ok.injEq, Prod.mk.injEq] at heq
        obtain ⟨ht, hv⟩ := heq
        subst hv
        exact ⟨rfl, rfl⟩
      · rw [hm] at heq
        simp only [Except.ok.injEq, Prod.mk.injEq] at heq
        obtain ⟨ht, hv⟩ := heq
        subst hv
        exact ⟨rfl, rfl⟩

/-- C3 witness: a vault with ttl = 1 second created at time 0 rejects the
calls issued at time 2. -/
theorem claim_C3_hard_expiry_witness :
    vaultTtl1.tokenize id 2 "aaaaaaaaaaaaaaaa" "hunter2" = .error .expired
    ∧ vaultTtl1.detokenize 2 "@token-aaaaaaaaaaaaaaaa" = .error .expired :=
  ⟨(claim_C3_hard_expiry vaultTtl1 2 (by decide)).1 id "aaaaaaaaaaaaaaaa" "hunter2",
   (claim_C3_hard_expiry vaultTtl1 2 (by decide)).2.1 "@token-aaaaaaaaaaaaaaaa"⟩

/-- Case analysis of a successful `tokenize` call: the session was unexpired,
and either the dedup cache hit (state unchanged) or a fresh token was minted
and both maps extended. -/
theorem tokenize_ok_cases (hash : String → String) (v : TokenVault) (now : ℤ)
    (tokenId value tok : String) (v' : TokenVault)
    (heq : v.tokenize hash now tokenId value = .ok (tok, v')) :
    v.is_expired now = false ∧
    ((lookupKV v.value_to_token (hash value) = some tok ∧ v' = v) ∨
     (lookupKV v.value_to_token (hash value) = none ∧ tok = tokenLit ++ tokenId ∧
      v' = { v with
             token_map := (tokenLit ++ tokenId, value) :: v.token_map
             value_to_token := (hash value, tokenLit ++ tokenId) :: v.value_to_token })) := by
  rw [TokenVault.tokenize] at heq
  by_cases hexp : v.is_expired now = true
  · rw [if_pos hexp] at heq
    exact absurd heq (by simp)
  · refine ⟨by simpa using hexp, ?_⟩
    rw [if_neg hexp] at heq
    rcases hm : lookupKV v.value_to_token (hash value) with _ | t
    · rw [hm] at heq
      simp only [Except.ok.injEq, Prod.mk.injEq] at heq
      obtain ⟨ht, hv⟩ := heq
      subst ht
      subst hv
      exact Or.inr ⟨rfl, rfl, rfl⟩
    · rw [hm] at heq
      simp only [Except.ok.injEq, Prod.mk.injEq] at heq
      obtain ⟨ht, hv⟩ := heq
      subst ht
      subst hv
      exact Or.inl ⟨rfl, rfl⟩

/-- C7: within one unexpired session (two consecutive successful `tokenize`
calls on a consistent vault, with collision-free hashing and fresh minted
token ids), tokenizing the same value twice returns the same token, and
tokenizing two distinct values returns two distinct tokens. -/
theorem claim_C7_determinism_injectivity (hash : String → String) (v : TokenVault)
    (now₁ now₂ : ℤ) (tid₁ tid₂ v₁ v₂ t₁ t₂ : String) (w₁ w₂ : TokenVault)
    (hinj : Function.Injective hash)
    (hwf : WFVault hash v)
    (hfresh₁ : lookupKV v.token_map (tokenLit ++ tid₁) = none)
    (hfresh₂ : lookupKV w₁.token_map (tokenLit ++ tid₂) = none)
    (h₁ : v.tokenize hash now₁ tid₁ v₁ = .ok (t₁, w₁))
    (h₂ : w₁.tokenize hash now₂ tid₂ v₂ = .ok (t₂, w₂)) :
    (v₂ = v₁ → t₂ = t₁) ∧ (v₂ ≠ v₁ → t₂ ≠ t₁) := by
  have hwf₁ : WFVault hash w₁ :=
    wfVault_tokenize hash v now₁ tid₁ v₁ t₁ w₁ hinj hfresh₁ hwf h₁
  -- After the first call the dedup cache resolves `hash v₁` to `t₁`.
  have hvt₁ : lookupKV w₁.value_to_token (hash v₁) = some t₁ := by
    rcases (tokenize_ok_cases hash v now₁ tid₁ v₁ t₁ w₁ h₁).2 with ⟨hl, hv⟩ | ⟨hl, ht, hv⟩
    · rw [hv]
      exact hl
    · rw [hv]
      simp [lookupKV, ht]
  have htm₁ : lookupKV w₁.token_map t₁ = some v₁ := (hwf₁ v₁ t₁ hvt₁).2
  constructor
  · intro hsame
    subst hsame
    rcases (tokenize_ok_cases hash w₁ now₂ tid₂ v₂ t₂ w₂ h₂).2 with ⟨hl, _⟩ | ⟨hl, _, _⟩
    · rw [hvt₁] at hl
      simpa using hl.symm
    · rw [hvt₁] at hl
      exact absurd hl (by simp)
  · intro hdiff heqt
    rcases (tokenize_ok_cases hash w₁ now₂ tid₂ v₂ t₂ w₂ h₂).2 with ⟨hl, _⟩ | ⟨hl, ht, _⟩
    · have htm₂ : lookupKV w₁.token_map t₂ = some v₂ := (hwf₁ v₂ t₂ hl).2
      rw [heqt, htm₁] at htm₂
      exact hdiff (by simpa using htm₂.symm)
    · have hnone := hfresh₂
      rw [← ht, heqt] at hnone
      rw [hnone] at htm₁
      exact absurd htm₁ (by simp)

/-- C7 witness: tokenizing `"hunter2"` then `"swordfish"` in a fresh vault
yields the distinct tokens minted for them. -/
theorem claim_C7_determinism_injectivity_witness :
    ("@token-bbbbbbbbbbbbbbbb" : String) ≠ "@token-aaaaaaaaaaaaaaaa" :=
  (claim_C7_determinism_injectivity id vaultFresh 0 0 "aaaaaaaaaaaaaaaa"
      "bbbbbbbbbbbbbbbb" "hunter2" "swordfish" "@token-aaaaaaaaaaaaaaaa"
      "@token-bbbbbbbbbbbbbbbb" vaultW vaultW2 (fun _ _ hab => hab)
      (wfVault_fresh id) (by decide) (by decide) (by decide) (by decide)).2
    (by decide)

/-- C8 counterexample: `"@token-zz"` does not match the token grammar (its
suffix is neither 16 characters long nor hex), so per the claim an unexpired
`detokenize` should return it unchanged; the code instead raises UnknownToken,
because `detokenize` tests only the literal prefix, not the full grammar. -/
theorem claim_C8_counterexample :
    matchesTokenGrammar "@token-zz" = false
    ∧ vaultFresh.is_expired 0 = false
    ∧ vaultFresh.detokenize 0 "@token-zz" = .error (.unknownToken "@token-zz") := by
  refine ⟨by decide, by decide, by decide⟩

/-- C8 (amended): while the session is unexpired, `detokenize s` raises
UnknownToken exactly when `s` starts with the literal token prefix `@token-`
and is absent from the token map, and returns `s` unchanged (pass-through)
for every string that does not start with that prefix (the source tests only
the prefix, not the full fixed-length lowercase-hex grammar). -/
theorem claim_C8_unknown_token_amended (v : TokenVault) (now : ℤ) (s : String)
    (hexp : v.is_expired now = false) :
    ((v.detokenize now s = .error (.unknownToken s)) ↔
      (strStartsWith s tokenLit = true ∧ lookupKV v.token_map s = none))
    ∧ (strStartsWith s tokenLit = false → v.detokenize now s = .ok s) := by
  constructor
  · constructor
    · intro herr
      rw [TokenVault.detokenize, if_neg (by simp [hexp])] at herr
      by_cases hs : strStartsWith s tokenLit = false
      · rw [if_pos hs] at herr
        exact absurd herr (by simp)
      · rw [if_neg hs] at herr
        refine ⟨by simpa using hs, ?_⟩
        rcases hm : lookupKV v.token_map s with _ | value
        · rfl
        · rw [hm] at herr
          exact absurd herr (by simp)
    · rintro ⟨hs, hm⟩
      rw [TokenVault.detokenize, if_neg (by simp [hexp]), if_neg (by simp [hs]), hm]
  · intro hs
    rw [TokenVault.detokenize, if_neg (by simp [hexp]), if_pos hs]

/-- C8 witness: at time 0 an unexpired fresh vault passes `"ordinary"`
through unchanged. -/
theorem claim_C8_unknown_token_amended_witness :
    vaultFresh.detokenize 0 "ordinary" = .ok "ordinary" :=
  (claim_C8_unknown_token_amended vaultFresh 0 "ordinary" (by decide)).2 (by decide)

/-- Whenever `authenticate_verify` gets past the session and operation checks
— whether the ceremony then fails or succeeds — the state it leaves behind
has the session's challenge removed. -/
theorem authenticate_verify_consumes (st : ApprovalState) (now : ℤ)
    (session_id op_id : String) (verification : Option AuthVerification) :
    (authenticate_verify st now session_id op_id verification).1 = .invalidSession
    ∨ (authenticate_verify st now session_id op_id verification).1 = .opNotFound
    ∨ (authenticate_verify st now session_id op_id verification).2.challenges
        = removeKV st.challenges session_id := by
  rw [authenticate_verify]
  by_cases hc : session_id = "" ∨ lookupKV st.challenges session_id = none
  · rw [if_pos hc]
    exact Or.inl rfl
  · rw [if_neg hc]
    rcases hop : lookupKV st.pending_ops op_id with _ | op
    · exact Or.inr (Or.inl rfl)
    · rcases hcred : st.credentials_db with _ | stored
      · refine Or.inr (Or.inr ?_)
        simp [hcred]
      · rcases verification with _ | verif
        · exact Or.inr (Or.inr (by simp [hcred]))
        · exact Or.inr (Or.inr (by simp [hcred]))

/-- Whenever `register_verify` gets past the session check, the state it
leaves behind has the session's challenge removed. -/
theorem register_verify_consumes (st : ApprovalState) (now : ℤ)
    (session_id device_name created_at_iso : String)
    (verification : Option RegVerification) :
    (register_verify st now session_id device_name created_at_iso verification).1
        = .invalidSession
    ∨ (register_verify st now session_id device_name created_at_iso verification).2.challenges
        = removeKV st.challenges session_id := by
  rw [register_verify]
  by_cases hc : session_id = "" ∨ lookupKV st.challenges session_id = none
  · rw [if_pos hc]
    exact Or.inl rfl
  · rw [if_neg hc]
    rcases verification with _ | verif
    · exact Or.inr rfl
    · exact Or.inr rfl

/-- C4: every challenge is consumed exactly once.  The moment a register-verify
or authenticate-verify request is matched against its stored challenge (it got
past the checks that precede the match), the challenge is removed from the
store — whatever the ceremony's outcome — and any second verify request
presenting the same session id, to either endpoint, is rejected as an invalid
session. -/
theorem claim_C4_challenge_single_use :
    (∀ st now session_id op_id verification,
      (authenticate_verify st now session_id op_id verification).1 ≠ .invalidSession →
      (authenticate_verify st now session_id op_id verification).1 ≠ .opNotFound →
      lookupKV (authenticate_verify st now session_id op_id verification).2.challenges
          session_id = none
      ∧ (∀ now₂ op₂ verif₂,
          (authenticate_verify (authenticate_verify st now session_id op_id
              verification).2 now₂ session_id op₂ verif₂).1 = .invalidSession)
      ∧ (∀ now₂ dev₂ iso₂ verif₂,
          (register_verify (authenticate_verify st now session_id op_id
              verification).2 now₂ session_id dev₂ iso₂ verif₂).1 = .invalidSession))
    ∧ (∀ st now session_id device_name created_at_iso verification,
      (register_verify st now session_id device_name created_at_iso
          verification).1 ≠ .invalidSession →
      lookupKV (register_verify st now session_id device_name created_at_iso
          verification).2.challenges session_id = none
      ∧ (∀ now₂ op₂ verif₂,
          (authenticate_verify (register_verify st now session_id device_name
              created_at_iso verification).2 now₂ session_id op₂ verif₂).1
            = .invalidSession)
      ∧ (∀ now₂ dev₂ iso₂ verif₂,
          (register_verify (register_verify st now session_id device_name
              created_at_iso verification).2 now₂ session_id dev₂ iso₂ verif₂).1
            = .invalidSession)) := by
  constructor
  · intro st now session_id op_id verification h1 h2
    rcases authenticate_verify_consumes st now session_id op_id verification
      with hbad | hbad | hch
    · exact absurd hbad h1
    · exact absurd hbad h2
    · have hnone : lookupKV (authenticate_verify st now session_id op_id
          verification).2.challenges session_id = none := by
        rw [hch]
        exact lookupKV_removeKV_self _ _
      refine ⟨hnone, ?_, ?_⟩
      · intro now₂ op₂ verif₂
        rw [authenticate_verify, if_pos (Or.inr hnone)]
      · intro now₂ dev₂ iso₂ verif₂
        rw [register_verify, if_pos (Or.inr hnone)]
  · intro st now session_id device_name created_at_iso verification h1
    rcases register_verify_consumes st now session_id device_name created_at_iso
      verification with hbad | hch
    · exact absurd hbad h1
    · have hnone : lookupKV (register_verify st now session_id device_name
          created_at_iso verification).2.challenges session_id = none := by
        rw [hch]
        exact lookupKV_removeKV_self _ _
      refine ⟨hnone, ?_, ?_⟩
      · intro now₂ op₂ verif₂
        rw [authenticate_verify, if_pos (Or.inr hnone)]
      · intro now₂ dev₂ iso₂ verif₂
        rw [register_verify, if_pos (Or.inr hnone)]

/-- C4 witness: a verify that reaches the ceremony and fails (no credential
registered) still consumes the challenge, and replays to both verify
endpoints are rejected as invalid sessions. -/
theorem claim_C4_challenge_single_use_witness :
    lookupKV (authenticate_verify stC4 0 "s1" "op1" none).2.challenges "s1" = none
    ∧ (authenticate_verify (authenticate_verify stC4 0 "s1" "op1" none).2
        0 "s1" "op1" none).1 = .invalidSession
    ∧ (register_verify (authenticate_verify stC4 0 "s1" "op1" none).2
        0 "s1" "Phone" "2026-01-01" none).1 = .invalidSession := by
  obtain ⟨h1, h2, h3⟩ := claim_C4_challenge_single_use.1 stC4 0 "s1" "op1" none
    (by decide) (by decide)
  exact ⟨h1, h2 0 "op1" none, h3 0 "Phone" "2026-01-01" none⟩

/-- C1 (code behaviour at the failing input): `authenticate_verify` checks
neither the ledger on disk nor the operation's age, so a verify request at
time 301 against an operation created at time 0 — 301 seconds earlier, past
the 300-second window — succeeds and sets the approval flag, even though
`approve_page` at the same instant reloads, evicts the expired operation and
answers 404.
This contradicts the claim that the ceremony-verify step fails closed on every
operation older than the window. -/
theorem claim_C1_expired_op_approved_by_verify :
    (301 : ℤ) - opC1.created_at > 300
    ∧ (authenticate_verify stC1 301 "s1" "op1" (some verifC1)).1 = .success
    ∧ (lookupKV (authenticate_verify stC1 301 "s1" "op1" (some verifC1)).2.pending_ops
        "op1").map PendingOperation.approved = some true
    ∧ (approve_page stC1 301 "op1").1 = .notFound := by
  refine ⟨by decide, by decide, by decide, by decide⟩

/-- If an expired operation survives the reload, `is_approved` reports false
and deletes it from the live pending set. -/
theorem is_approved_expired_evicts (st : ApprovalState) (now : ℤ) (op_id : String)
    (op : PendingOperation)
    (hl : lookupKV (load_pending_operations st now).pending_ops op_id = some op)
    (hexp : now - op.created_at > 300) :
    (is_approved st now op_id).1 = false
    ∧ lookupKV (is_approved st now op_id).2.pending_ops op_id = none := by
  simp [is_approved, hl, hexp, lookupKV_removeKV_self]

/-- C6: `is_approved` first reloads the ledger from disk, and then returns
true exactly when the operation is present in the reloaded ledger, its age
does not exceed the 300-second window, and its approval flag is set; an
operation past the window is reported not approved and evicted from the live
pending set, so it is absent from subsequent listings. -/
theorem claim_C6_is_approved (st : ApprovalState) (now : ℤ) (op_id : String) :
    ((is_approved st now op_id).1 = true ↔
      (∃ op, lookupKV (load_pending_operations st now).pending_ops op_id = some op
        ∧ ¬(now - op.created_at > 300) ∧ op.approved = true))
    ∧ (∀ op, lookupKV (load_pending_operations st now).pending_ops op_id = some op →
        now - op.created_at > 300 →
        (is_approved st now op_id).1 = false
        ∧ lookupKV (is_approved st now op_id).2.pending_ops op_id = none) := by
  constructor
  · rcases hl : lookupKV (load_pending_operations st now).pending_ops op_id with _ | op
    · simp [is_approved, hl]
    · by_cases hexp : now - op.created_at > 300
      · simp only [is_approved, hl, if_pos hexp, Bool.false_eq_true, false_iff,
          not_exists, not_and]
        intro op' hop'
        obtain rfl : op = op' := by simpa using hop'
        intro hnexp
        exact absurd hexp hnexp
      · simp only [is_approved, hl, if_neg hexp]
        constructor
        · intro happ
          exact ⟨op, rfl, hexp, happ⟩
        · rintro ⟨op', hop', -, happ⟩
          obtain rfl : op = op' := by simpa using hop'
          exact happ
  · exact fun op hl hexp => is_approved_expired_evicts st now op_id op hl hexp

/-- C6 witness: an operation created at time 0, approved, checked at time 10,
reports approved. -/
theorem claim_C6_is_approved_witness : (is_approved stC6 10 "op9").1 = true :=
  (claim_C6_is_approved stC6 10 "op9").1.mpr ⟨opApprovedOld, by decide, by decide, rfl⟩

/-- C10: expiry eviction is keyed solely on the creation timestamp, never on
the approval flag.  After a ledger load that found the ledger file, no
operation older than 300 seconds survives, approved or not; and if an expired
operation is still in the live set (e.g. the ledger file was absent), an
`is_approved` check deletes it and reports false, again regardless of its
approval flag. -/
theorem claim_C10_eviction_ignores_approval (st : ApprovalState) (now : ℤ)
    (op_id : String) :
    (st.disk_pending ≠ none →
      ∀ op, lookupKV (load_pending_operations st now).pending_ops op_id = some op →
        ¬(now - op.created_at > 300))
    ∧ (∀ op, lookupKV (load_pending_operations st now).pending_ops op_id = some op →
        now - op.created_at > 300 →
        (is_approved st now op_id).1 = false
        ∧ lookupKV (is_approved st now op_id).2.pending_ops op_id = none) := by
  constructor
  · intro hdisk op hl
    rcases hd : st.disk_pending with _ | data
    · exact absurd hd hdisk
    · simp only [load_pending_operations, hd] at hl
      by_cases hempty :
          (data.foldl (fun acc kv => setKV acc kv.1 kv.2) st.pending_ops).filter
            (fun kv => decide (now - kv.2.created_at > 300)) = []
      · rw [if_pos hempty] at hl
        have hmem := lookupKV_mem _ _ _ hl
        have := List.filter_eq_nil_iff.mp hempty _ hmem
        simpa using this
      · rw [if_neg hempty] at hl
        have := lookupKV_filter _ _ _ _ hl
        simpa using this
  · exact fun op hl hexp => is_approved_expired_evicts st now op_id op hl hexp

/-- C10 witness: an operation approved at time 5 but checked at time 400 — 400
seconds after its creation — is reported not approved and evicted. -/
theorem claim_C10_eviction_ignores_approval_witness :
    (is_approved stC10 400 "op9").1 = false
    ∧ lookupKV (is_approved stC10 400 "op9").2.pending_ops "op9" = none :=
  (claim_C10_eviction_ignores_approval stC10 400 "op9").2 opApprovedOld
    (by decide) (by decide)

/-- On sequences that hold no nested containers, the source's per-element
comprehension agrees with the fully recursive walk. -/
theorem detok_list_eq_deep (vault : TokenVault) (now : ℤ) (items : List JValue)
    (hflat : items.all (fun v => !isContainer v) = true) :
    detok_list vault now items = detokenize_deep_items vault now items := by
  induction items with
  | nil => simp [detok_list, detokenize_deep_items]
  | cons v rest ih =>
    simp only [List.all_cons, Bool.and_eq_true] at hflat
    obtain ⟨hv, hrest⟩ := hflat
    rcases v with s | n | b | _ | entries | items2
    · by_cases hs : strStartsWith s tokenLit = true
      · rcases hdet : vault.detokenize now s with e | w <;>
          simp [detok_list, detokenize_deep_items, detokenize_deep_value, hs, hdet,
            ih hrest, Except.map]
      · simp [detok_list, detokenize_deep_items, detokenize_deep_value, hs, ih hrest]
    · simp [detok_list, detokenize_deep_items, detokenize_deep_value, ih hrest]
    · simp [detok_list, detokenize_deep_items, detokenize_deep_value, ih hrest]
    · simp [detok_list, detokenize_deep_items, detokenize_deep_value, ih hrest]
    · exact absurd hv (by simp [isContainer])
    · exact absurd hv (by simp [isContainer])

/-- C9 counterexample: with an unexpired vault mapping the token to
`"hunter2"`, `detokenize_dict` returns `dataC9` unchanged — the token-shaped
string nested inside a dict inside a list is NOT replaced — while the fully
recursive walk the claim describes replaces it. -/
theorem claim_C9_counterexample :
    vaultW.is_expired 0 = false
    ∧ lookupKV vaultW.token_map "@token-aaaaaaaaaaaaaaaa" = some "hunter2"
    ∧ detokenize_dict vaultW 0 dataC9 = .ok dataC9
    ∧ detokenize_deep_entries vaultW 0 dataC9 = .ok dataC9deep
    ∧ dataC9 ≠ dataC9deep := by
  refine ⟨by decide, by decide, ?_, ?_, ?_⟩
  · simp [dataC9, detokenize_dict, detok_list]
  · have h1 : strStartsWith "@token-aaaaaaaaaaaaaaaa" tokenLit = true := by decide
    have h2 : vaultW.detokenize 0 "@token-aaaaaaaaaaaaaaaa" = .ok "hunter2" := by decide
    simp [dataC9, dataC9deep, detokenize_deep_entries, detokenize_deep_value,
      detokenize_deep_items, h1, h2, Except.map]
  · simp [dataC9, dataC9deep]

/-- C9 (amended): `detokenize_dict` walks nested mappings recursively at any
depth, replacing token-shaped string values and token-shaped string elements
of sequences, but does not descend into containers nested inside sequences;
consequently it coincides with the fully recursive walk exactly on containers
whose sequences hold only non-container elements. -/
theorem claim_C9_detokenize_dict_amended (vault : TokenVault) (now : ℤ)
    (data : List (String × JValue)) (hflat : flat_entries data = true) :
    detokenize_dict vault now data = detokenize_deep_entries vault now data := by
  suffices h : ∀ n, ∀ data : List (String × JValue), sizeOf data = n →
      flat_entries data = true →
      detokenize_dict vault now data = detokenize_deep_entries vault now data from
    h (sizeOf data) data rfl hflat
  intro n
  induction n using Nat.strong_induction_on with
  | _ n IH =>
    intro data hn hflat
    rcases data with _ | ⟨⟨key, value⟩, rest⟩
    · simp [detokenize_dict, detokenize_deep_entries]
    · simp only [flat_entries, Bool.and_eq_true] at hflat
      obtain ⟨hv, hrest⟩ := hflat
      subst hn
      have hsrest : sizeOf rest < sizeOf (((key, value) : String × JValue) :: rest) := by
        simp
      have ihrest := IH (sizeOf rest) hsrest rest rfl hrest
      rcases value with s | m | b | _ | entries | items
      · by_cases hs : strStartsWith s tokenLit = true
        · rcases hdet : vault.detokenize now s with e | w <;>
            simp [detokenize_dict, detokenize_deep_entries, detokenize_deep_value,
              hs, hdet, ihrest, Except.map]
        · simp [detokenize_dict, detokenize_deep_entries, detokenize_deep_value,
            hs, ihrest]
      · simp [detokenize_dict, detokenize_deep_entries, detokenize_deep_value, ihrest]
      · simp [detokenize_dict, detokenize_deep_entries, detokenize_deep_value, ihrest]
      · simp [detokenize_dict, detokenize_deep_entries, detokenize_deep_value, ihrest]
      · have hsent : sizeOf entries <
            sizeOf (((key, JValue.dict entries) : String × JValue) :: rest) := by
          simp
          omega
        have ihent := IH (sizeOf entries) hsent entries rfl (by simpa [flat_value] using hv)
        simp only [detokenize_dict, detokenize_deep_entries, detokenize_deep_value,
          ihrest, ihent]
        rcases hde : detokenize_deep_entries vault now entries with e | d <;>
          rcases hdr : detokenize_deep_entries vault now rest with e2 | r <;> simp
      · have hlist := detok_list_eq_deep vault now items (by simpa [flat_value] using hv)
        simp only [detokenize_dict, detokenize_deep_entries, detokenize_deep_value,
          ihrest, hlist]
        rcases hdi : detokenize_deep_items vault now items with e | l <;>
          rcases hdr : detokenize_deep_entries vault now rest with e2 | r <;> simp

/-- C9 witness: on a mapping whose sequences hold only scalars — with a token
value, a nested mapping, and a token element inside a sequence —
`detokenize_dict` and the fully recursive walk agree. -/
theorem claim_C9_detokenize_dict_amended_witness :
    detokenize_dict vaultW 0 dataC9flat = detokenize_deep_entries vaultW 0 dataC9flat :=
  claim_C9_detokenize_dict_amended vaultW 0 dataC9flat
    (by simp [dataC9flat, flat_entries, flat_value, isContainer])

end ClaudeVault
